import Mathlib

/-!
Verification of the ParkingCalculator fare engine and zone resolver.

This file shallowly embeds the core of the repository:
  * `services/npr_tarief.py` — the fare engine (`bereken_kosten`,
    `_get_tarief_parts`, `_calculate_total_cost`, `_calculate_part_cost`);
  * `services/npr_zone.py` — the zone catalog and resolver
    (`get_zone_by_address`, `_get_fallback_zone`, `_find_best_zone_for_postcode`,
    `_find_zone_by_city_heuristics`, `get_available_zones`,
    `search_zones_by_name`, `_guess_city_from_postcode`);
  * `utils/date_utils.py` — `is_date_in_range`.

Modelling conventions:
  * Currency amounts (Python floats read from the CSV) are modelled as exact
    rationals `ℚ`; YYYYMMDD dates and minute counts are `ℤ` as in the source
    (Python ints).  Python `//` is `Int.fdiv` (floor division) and
    `int(x / 60)` for integer `x` is `Int.tdiv x 60` (truncation toward zero).
  * A `datetime` value is abstracted to the two observations the engine makes
    of it: an absolute timestamp in whole seconds (`sec`, used for
    `(eind - start).total_seconds()`), and its calendar day rendered as the
    YYYYMMDD integer (`ymd`, used for `strftime("%Y%m%d")`).
  * Python's stable `list.sort` / `sorted` are modelled by stable insertion
    sorts with the same comparison semantics (strict comparison moves an
    element past another, ties keep original order).
  * `round(x, 2)` is modelled as round-half-to-even at two decimals
    (`round2`), matching Python's documented rounding rule.
  * The pandas dataframe of tariff rows is modelled as a `List TariefPart`
    (the dataframe filter in `_get_tarief_parts` is a list filter); the
    `available_zones` insertion-ordered dict is a `List ZoneInfo` with unique
    `zone_id`s, lookups being `List.find?` on the key.
  * The omnipresent `try/except` wrappers never fire in the embedded
    fragment (all modelled operations are total); the one reachable
    exception — `int()` failing on a non-numeric postcode prefix in
    `_guess_city_from_postcode` — is modelled explicitly with `String.toInt?`
    feeding the `error_fallback` path.  The `tarief_info` side output and the
    unused address fields (`coordinates`) are omitted; no claim concerns them.
-/

namespace NPR

/-- One row of the NPR tariff table, as materialised by the Python
`TariefPart` dataclass: zone key, validity window (YYYYMMDD integers),
duration bracket `[start_duration, end_duration)`, the per-step amount, the
step size in minutes and the cumulative amount. -/
structure TariefPart where
  area_manager_id : Int
  fare_calculation_code : String
  start_date : Int
  end_date : Int
  start_duration : Int
  end_duration : Int
  amount : ℚ
  step_size : Int
  cumulative_amount : ℚ
deriving Repr, DecidableEq

/-- `NPRTariefService._calculate_part_cost`: zero for non-positive minutes,
otherwise `((minutes + step_size - 1) // step_size) * amount +
cumulative_amount` with Python floor division. -/
def calculate_part_cost (part : TariefPart) (minutes : Int) : ℚ :=
  if minutes ≤ 0 then 0
  else (((minutes + part.step_size - 1).fdiv part.step_size : Int) : ℚ) * part.amount
        + part.cumulative_amount

/-- The bracket-walk of `_calculate_total_cost`:  `duration_minutes` is the
fixed `D`, the accumulator carries `remaining_duration` and the running
total; returns the running total and the remaining duration when the walk
stops (the `break` on `remaining_duration <= 0` returns early). -/
def calcLoop (D : Int) : List TariefPart → Int → ℚ → ℚ × Int
  | [], r, acc => (acc, r)
  | p :: ps, r, acc =>
    if r ≤ 0 then (acc, r)
    else if D - r < p.start_duration then calcLoop D ps r acc
    else
      let m := min r (p.end_duration - max p.start_duration (D - r))
      if 0 < m then calcLoop D ps (r - m) (acc + calculate_part_cost p m)
      else calcLoop D ps r acc

/-- `NPRTariefService._calculate_total_cost` (total only; the `tarief_info`
side channel is not modelled): walk the sorted parts, then, if duration is
left over and the last part is the unbounded sentinel `999999`, bill the
leftover with that part's formula. -/
def calculate_total_cost (parts : List TariefPart) (D : Int) : ℚ :=
  let res := calcLoop D parts D 0
  match parts.getLast? with
  | some lastp =>
      if 0 < res.2 ∧ lastp.end_duration = 999999
      then res.1 + calculate_part_cost lastp res.2
      else res.1
  | none => res.1

/-- One step of the stable insertion sort modelling
`valid_tariffs.sort(key=lambda x: x.start_duration)`: an element moves past
another only when its key is strictly smaller, so equal keys keep their
original relative order, as Python's stable sort guarantees. -/
def insertPart (p : TariefPart) : List TariefPart → List TariefPart
  | [] => [p]
  | q :: qs => if p.start_duration < q.start_duration then p :: q :: qs
               else q :: insertPart p qs

/-- Stable ascending sort by `start_duration` (model of the Python stable
`list.sort`): elements are inserted left to right, each settling after all
earlier elements with a smaller-or-equal key. -/
def sortParts (l : List TariefPart) : List TariefPart :=
  l.foldl (fun acc p => insertPart p acc) []

/-- `NPRTariefService._get_tarief_parts`: filter the table to the zone key,
keep rows whose `[start_date, end_date]` contains the calculation date
(`is_date_in_range` from `utils/date_utils.py`: inclusive integer
comparison), and sort ascending by `start_duration`. -/
def get_tarief_parts (data : List TariefPart) (area_manager_id : Int)
    (fare_calculation_code : String) (calc_date : Int) : List TariefPart :=
  let zone_data := data.filter (fun r =>
    r.area_manager_id == area_manager_id
      && r.fare_calculation_code == fare_calculation_code)
  let valid_tariffs := zone_data.filter (fun r =>
    decide (r.start_date ≤ calc_date) && decide (calc_date ≤ r.end_date))
  sortParts valid_tariffs

/-- A `datetime` as the fare engine observes it: absolute whole seconds
(`sec`) and the calendar day formatted as the YYYYMMDD integer (`ymd`). -/
structure DTime where
  sec : Int
  ymd : Int
deriving Repr, DecidableEq

/-- `duration_minutes = int((eind_tijd - start_tijd).total_seconds() / 60)`:
truncation toward zero of the elapsed seconds divided by 60. -/
def durationMinutes (start_tijd eind_tijd : DTime) : Int :=
  (eind_tijd.sec - start_tijd.sec).tdiv 60

/-- One line of the `details` breakdown built in `bereken_kosten`. -/
structure DetailLine where
  start_duration : Int
  end_duration : Int
  amount_per_step : ℚ
  step_size_minutes : Int
deriving Repr, DecidableEq

/-- The dictionary returned by `bereken_kosten` (the `tarief_info` entry is
not modelled). -/
structure BerekenResult where
  duur_minuten : Int
  totaal_kosten : ℚ
  details : List DetailLine
deriving Repr, DecidableEq

/-- Floor of a rational, computably: `q.num.fdiv q.den`.  (Mathlib's `⌊·⌋`
on `ℚ` does not reduce in the kernel; this definition does, and is proved
below to satisfy the floor bracketing.) -/
def ratFloor (q : ℚ) : Int := q.num.fdiv (q.den : Int)

/-- Round a rational to the nearest integer, halves to the even neighbour —
Python's `round` rule. -/
def roundHalfEven (q : ℚ) : Int :=
  if q - (ratFloor q : ℚ) < 1/2 then ratFloor q
  else if (1 : ℚ)/2 < q - (ratFloor q : ℚ) then ratFloor q + 1
  else if Int.emod (ratFloor q) 2 = 0 then ratFloor q else ratFloor q + 1

/-- `round(x, 2)`: round half to even at two decimal places. -/
def round2 (q : ℚ) : ℚ := ((roundHalfEven (q * 100) : Int) : ℚ) / 100

/-- `NPRTariefService.bereken_kosten` for a zone key: compute the duration
in whole minutes (absent if non-positive), select and sort the date-valid
tariff parts (absent if none), accumulate the total cost, round it to two
decimals, and report the first three selected parts as the breakdown. -/
def bereken_kosten (data : List TariefPart) (area_manager_id : Int)
    (fare_calculation_code : String) (start_tijd eind_tijd : DTime) :
    Option BerekenResult :=
  let duration_minutes := durationMinutes start_tijd eind_tijd
  if duration_minutes ≤ 0 then none
  else
    let tarief_parts :=
      get_tarief_parts data area_manager_id fare_calculation_code start_tijd.ymd
    if tarief_parts.isEmpty then none
    else
      some { duur_minuten := duration_minutes
           , totaal_kosten := round2 (calculate_total_cost tarief_parts duration_minutes)
           , details := (tarief_parts.take 3).map (fun p =>
               { start_duration := p.start_duration
               , end_duration := p.end_duration
               , amount_per_step := p.amount
               , step_size_minutes := p.step_size }) }

/-- An entry of `NPRZoneService.available_zones` (one zone of the catalog).
The Python dict values gain a `detection_method` key only when a resolver
copies them; the catalog entries themselves carry the empty string for it
(modelling the absent key; `dict.get('detection_method', 'automatic')`
becomes a test against `""`). -/
structure ZoneInfo where
  area_manager_id : Int
  fare_calculation_code : String
  zone_id : String
  zone_naam : String
  record_count : Int
  detection_method : String := ""
deriving Repr, DecidableEq

/-- A catalog entry as `_load_all_npr_zones` builds it from a
`(AreaManagerId, FareCalculationCode)` group with its row count:
`zone_id = f"{area_id}_{fare_code}"`, `zone_naam = f"Zone {area_id} - {fare_code}"`. -/
def mkZoneInfo (area_id : Int) (fare_code : String) (count : Int) : ZoneInfo :=
  { area_manager_id := area_id
  , fare_calculation_code := fare_code
  , zone_id := toString area_id ++ "_" ++ fare_code
  , zone_naam := "Zone " ++ toString area_id ++ " - " ++ fare_code
  , record_count := count }

/-- Lowercasing as Python `str.lower()` on the ASCII data in play. -/
def pyLower (s : String) : String := String.mk (s.data.map Char.toLower)

/-- Uppercasing as Python `str.upper()` on the ASCII data in play. -/
def pyUpper (s : String) : String := String.mk (s.data.map Char.toUpper)

/-- Python's `needle in hay` on char lists: `needle` occurs contiguously. -/
def listContains (hay needle : List Char) : Bool :=
  match hay with
  | [] => needle.isEmpty
  | _ :: t => needle.isPrefixOf hay || listContains t needle

/-- Python's substring test `needle in hay` for strings. -/
def strContains (hay needle : String) : Bool := listContains hay.data needle.data

/-- One step of the stable insertion sort modelling
`sorted(zones, key=lambda x: x.record_count, reverse=True)`: here the later
elements are already sorted and the earlier element `z` is inserted before
the first of them whose count does not exceed `z`'s, so equal counts keep
their original relative order (Python's `sorted` is stable, also with
`reverse=True`). -/
def insertZoneDesc (z : ZoneInfo) : List ZoneInfo → List ZoneInfo
  | [] => [z]
  | w :: ws => if w.record_count ≤ z.record_count then z :: w :: ws
               else w :: insertZoneDesc z ws

/-- Stable descending sort by `record_count`, the model of Python's
`sorted(..., key=record_count, reverse=True)`. -/
def sortZonesDesc : List ZoneInfo → List ZoneInfo
  | [] => []
  | z :: zs => insertZoneDesc z (sortZonesDesc zs)

/-- `NPRZoneService._get_fallback_zone`: none when the catalog is empty,
else the head of the catalog sorted descending by `record_count`, tagged
`fallback_most_popular`. -/
def get_fallback_zone (zones : List ZoneInfo) : Option ZoneInfo :=
  match sortZonesDesc zones with
  | [] => none
  | z :: _ => some { z with detection_method := "fallback_most_popular" }

/-- `NPRZoneService._find_most_popular_zone` just delegates. -/
def find_most_popular_zone (zones : List ZoneInfo) : Option ZoneInfo :=
  get_fallback_zone zones

/-- `NPRZoneService.get_available_zones` (the `zones` list; the `total`
field of the returned dict is its length): all catalog entries sorted
descending by popularity. -/
def get_available_zones (zones : List ZoneInfo) : List ZoneInfo :=
  sortZonesDesc zones

/-- `NPRZoneService.search_zones_by_name`: keep the zones one of whose
display name (lowercased), fare code (lowercased) or stringified area id
contains the lowercased search term. -/
def search_zones_by_name (zones : List ZoneInfo) (search_term : String) :
    List ZoneInfo :=
  let term := pyLower search_term
  zones.filter (fun z =>
    strContains (pyLower z.zone_naam) term
      || strContains (pyLower z.fare_calculation_code) term
      || strContains (toString z.area_manager_id) term)

/-- `NPRZoneService._guess_city_from_postcode` on the already-parsed
4-digit prefix. -/
def guess_city_from_postcode (pc_int : Int) : String :=
  if 1000 ≤ pc_int ∧ pc_int ≤ 1299 then "Amsterdam"
  else if 3000 ≤ pc_int ∧ pc_int ≤ 3299 then "Rotterdam"
  else if 3500 ≤ pc_int ∧ pc_int ≤ 3599 then "Utrecht"
  else if 2500 ≤ pc_int ∧ pc_int ≤ 2699 then "Den Haag"
  else "Nederland"

/-- The fixed `city_patterns` table of `_find_zone_by_city_heuristics`. -/
def city_patterns (gemeente : String) : List (Int × List String) :=
  if gemeente = "amsterdam" then
    [(14, ["TAR01", "TAR02", "TAR03", "TAR04"]), (14, ["14_DAGTAR", "PRTAR01"])]
  else if gemeente = "utrecht" then
    [(34, ["34_TAR01", "34_TAR02"]), (34, ["34_DAG01", "34_DAG02"])]
  else if gemeente = "rotterdam" then
    [(17, ["TAR01", "GAR01"]), (5, ["PR01"])]
  else if gemeente = "den haag" then
    [(10, ["TAR01", "CPL01"]), (3, ["PR01"])]
  else []

/-- The candidate `(area_id, fare_code)` pairs the nested loops of
`_find_zone_by_city_heuristics` visit, in visiting order. -/
def heuristicCandidates (gemeente : String) : List (Int × String) :=
  (city_patterns gemeente).flatMap (fun p => p.2.map (fun c => (p.1, c)))

/-- Catalog lookup `zone_key in self.available_zones` /
`self.available_zones[zone_key]` (keys are unique after grouping). -/
def zoneLookup (zones : List ZoneInfo) (key : String) : Option ZoneInfo :=
  zones.find? (fun z => z.zone_id == key)

/-- `NPRZoneService._find_zone_by_city_heuristics`: walk the candidate
pairs in table order and return the first whose `f"{area_id}_{fare_code}"`
key exists in the catalog, a copy tagged `city_heuristics`. -/
def find_zone_by_city_heuristics (zones : List ZoneInfo) (gemeente : String) :
    Option ZoneInfo :=
  (heuristicCandidates gemeente).findSome? (fun ac =>
    (zoneLookup zones (toString ac.1 ++ "_" ++ ac.2)).map (fun z =>
      { z with detection_method := "city_heuristics" }))

/-- The address data the resolver consumes (street, city, municipality; the
unused `coordinates` entry is omitted). -/
structure AdresData where
  straatnaam : String
  woonplaats : String
  gemeente : String
deriving Repr, DecidableEq

/-- The memoization cache `postcode_to_zone_cache`, an association list
keyed by `f"{postcode_clean}_{gemeente}"`. -/
def cacheLookup (cache : List (String × ZoneInfo)) (key : String) :
    Option ZoneInfo :=
  (cache.find? (fun e => e.1 == key)).map (fun e => e.2)

/-- `NPRZoneService._find_best_zone_for_postcode`: cache hit first, then
the city heuristic on the lowercased municipality (tag overwritten to
`city_heuristics` again), then the most-popular fallback retagged
`most_popular`.  (The cache write is a mutation of service state and is not
modelled; the cache is an input here.) -/
def find_best_zone_for_postcode (zones : List ZoneInfo)
    (cache : List (String × ZoneInfo)) (postcode : String)
    (adres_data : AdresData) : Option ZoneInfo :=
  let postcode_clean := pyUpper (String.mk (postcode.data.filter (fun c => c ≠ ' ')))
  let gemeente := pyLower adres_data.gemeente
  let cache_key := postcode_clean ++ "_" ++ gemeente
  match cacheLookup cache cache_key with
  | some cached => some cached
  | none =>
    match find_zone_by_city_heuristics zones gemeente with
    | some best => some { best with detection_method := "city_heuristics" }
    | none =>
      match find_most_popular_zone zones with
      | some best => some { best with detection_method := "most_popular" }
      | none => none

/-- The resolver's result dictionary (`coordinates` omitted). -/
structure ResolvedZone where
  zone_id : String
  zone_naam : String
  area_manager_id : Int
  fare_calculation_code : String
  adres : AdresData
  detection_method : String
deriving Repr, DecidableEq

/-- Package a found zone as `get_zone_by_address` does, applying the
`detection_method` default `'automatic'` for a zone dict lacking the key. -/
def mkResolved (zone_info : ZoneInfo) (adres_data : AdresData) : ResolvedZone :=
  { zone_id := zone_info.zone_id
  , zone_naam := zone_info.zone_naam
  , area_manager_id := zone_info.area_manager_id
  , fare_calculation_code := zone_info.fare_calculation_code
  , adres := adres_data
  , detection_method := if zone_info.detection_method = "" then "automatic"
                        else zone_info.detection_method }

/-- The tail of `get_zone_by_address` once `adres_data` is settled: find the
best zone, fall back to `_get_fallback_zone` when that yields nothing
("ALTIJD een zone teruggeven"), and package the answer. -/
def resolve_with_adres (zones : List ZoneInfo)
    (cache : List (String × ZoneInfo)) (postcode_clean : String)
    (adres_data : AdresData) : Option ResolvedZone :=
  match find_best_zone_for_postcode zones cache postcode_clean adres_data with
  | some zone_info => some (mkResolved zone_info adres_data)
  | none =>
    match get_fallback_zone zones with
    | some zone_info => some (mkResolved zone_info adres_data)
    | none => none

/-- `NPRZoneService.get_zone_by_address`.  `bag_result` is the outcome of
the external BAG lookup with its failures already absorbed (`None` both for
"not found" and for a raised exception, which the method catches).  When it
is absent, a dummy address is synthesized from the postcode prefix; a
non-numeric prefix makes `int()` raise inside `_guess_city_from_postcode`,
landing in the outer `except`, which still answers with the fallback zone,
tagged `error_fallback`. -/
def get_zone_by_address (zones : List ZoneInfo)
    (cache : List (String × ZoneInfo)) (bag_result : Option AdresData)
    (postcode : String) : Option ResolvedZone :=
  let postcode_clean := pyUpper (String.mk (postcode.data.filter (fun c => c ≠ ' ')))
  let postcode_cijfers := String.mk (postcode_clean.data.take 4)
  match bag_result with
  | some adres_data => resolve_with_adres zones cache postcode_clean adres_data
  | none =>
    match postcode_cijfers.toInt? with
    | some pc_int =>
        resolve_with_adres zones cache postcode_clean
          { straatnaam := "Onbekend"
          , woonplaats := guess_city_from_postcode pc_int
          , gemeente := pyLower (guess_city_from_postcode pc_int) }
    | none =>
        match get_fallback_zone zones with
        | some zone_info =>
            some { zone_id := zone_info.zone_id
                 , zone_naam := zone_info.zone_naam
                 , area_manager_id := zone_info.area_manager_id
                 , fare_calculation_code := zone_info.fare_calculation_code
                 , adres := { straatnaam := "Onbekend", woonplaats := "Onbekend"
                            , gemeente := "onbekend" }
                 , detection_method := "error_fallback" }
        | none => none

/-! ### Statement-side definitions

Closed-form descriptions of the walk in `_calculate_total_cost`, used to
state the claims; they are proved equal to the loop below. -/

/-- The ideal cursor of the bracket walk: where the consumed-duration cursor
would stand after bracket `p` for an unboundedly long stay — unchanged when
the bracket starts beyond the cursor, else pushed to the bracket's end. -/
def advance (c : Int) (p : TariefPart) : Int :=
  if c < p.start_duration then c else max c p.end_duration

/-- Closed form of the loop's accumulated cost for duration `D` with the
ideal cursor starting at `c`: each bracket is billed for the minutes the
cursor moves through it, clamped to `D`. -/
def idealTotal (D : Int) : Int → List TariefPart → ℚ
  | _, [] => 0
  | c, p :: ps =>
      calculate_part_cost p (min D (advance c p) - min D c)
        + idealTotal D (advance c p) ps

/-- The brackets are contiguous starting at `c`: each starts where its
predecessor ended and none is reversed.  This is the "brackets cover the
full duration" shape of the spec (together with `lastEnd` reaching `D`). -/
def contigFrom : Int → List TariefPart → Bool
  | _, [] => true
  | c, p :: ps =>
      (p.start_duration == c)
        && decide (p.start_duration ≤ p.end_duration)
        && contigFrom p.end_duration ps

/-- End of the last bracket of the list, `c` for the empty list. -/
def lastEnd : Int → List TariefPart → Int
  | c, [] => c
  | _, p :: ps => lastEnd p.end_duration ps

/-- Spec-side description of the fallback selection (refinement target; the
code sorts and takes the head): the first catalog entry whose
`record_count` no later entry strictly exceeds — i.e. the earliest zone of
maximal popularity, the documented stable tie-break. -/
def firstMaxZone : List ZoneInfo → Option ZoneInfo
  | [] => none
  | z :: zs =>
    match firstMaxZone zs with
    | none => some z
    | some w => if z.record_count < w.record_count then some w else some z

/-- Adjacent-pairs check that a zone list is sorted descending by
`record_count`. -/
def sortedDescB : List ZoneInfo → Bool
  | [] => true
  | [_] => true
  | a :: b :: t => decide (b.record_count ≤ a.record_count) && sortedDescB (b :: t)

/-- The totals of two optional calculation results never decrease from the
first to the second (vacuous when either is absent). -/
def totalsMono (o1 o2 : Option BerekenResult) : Prop :=
  ∀ a ∈ o1, ∀ b ∈ o2, a.totaal_kosten ≤ b.totaal_kosten

/-! ### Concrete data for scenarios, counterexamples and witnesses -/

/-- First bracket of the spec's `"14_TAR01"` scenario: `[0, 60)`, step 15,
amount 1.00, cumulative 0.00, valid 2020-01-01 … 2030-12-31. -/
def row14a : TariefPart :=
  { area_manager_id := 14, fare_calculation_code := "TAR01"
  , start_date := 20200101, end_date := 20301231
  , start_duration := 0, end_duration := 60
  , amount := 1, step_size := 15, cumulative_amount := 0 }

/-- Unbounded tail bracket of the scenario: `[60, 999999)`, step 30,
amount 1.50, cumulative 0.00. -/
def row14b : TariefPart :=
  { area_manager_id := 14, fare_calculation_code := "TAR01"
  , start_date := 20200101, end_date := 20301231
  , start_duration := 60, end_duration := 999999
  , amount := 3/2, step_size := 30, cumulative_amount := 0 }

/-- The scenario's tariff table (stored out of order to exercise the sort). -/
def data14 : List TariefPart := [row14b, row14a]

/-- A tariff table whose only date-valid bracket `[50, 60)` starts beyond a
short stay, so it is selected but contributes nothing. -/
def dataGap : List TariefPart :=
  [{ area_manager_id := 14, fare_calculation_code := "TAR01"
   , start_date := 20200101, end_date := 20301231
   , start_duration := 50, end_duration := 60
   , amount := 1, step_size := 15, cumulative_amount := 0 }]

/-- A two-bracket table with integer amounts (kernel-computable bounds),
used by the monotonicity witness. -/
def dataMono : List TariefPart :=
  [{ area_manager_id := 14, fare_calculation_code := "TAR01"
   , start_date := 20200101, end_date := 20301231
   , start_duration := 0, end_duration := 60
   , amount := 1, step_size := 15, cumulative_amount := 0 },
   { area_manager_id := 14, fare_calculation_code := "TAR01"
   , start_date := 20200101, end_date := 20301231
   , start_duration := 60, end_duration := 999999
   , amount := 2, step_size := 30, cumulative_amount := 0 }]

/-- A one-zone catalog holding Utrecht's `"Zone 34 - 34_TAR01"`. -/
def zones34 : List ZoneInfo := [mkZoneInfo 34 ("34_TAR01") 7]

/-- A one-zone catalog holding Amsterdam's `"14_TAR01"`. -/
def zones14 : List ZoneInfo := [mkZoneInfo 14 ("TAR01") 5]

/-- An address in Amsterdam as the BAG lookup would report it. -/
def adresAms : AdresData :=
  { straatnaam := "Damrak", woonplaats := "Amsterdam", gemeente := "Amsterdam" }

/-! ### Rounding lemmas -/

lemma ratFloor_cast_le (q : ℚ) : (ratFloor q : ℚ) ≤ q := by
  have hd : (0 : ℤ) < (q.den : ℤ) := by exact_mod_cast q.den_pos
  rw [ratFloor, Int.fdiv_eq_ediv _ hd.le]
  conv_rhs => rw [← Rat.num_div_den q]
  rw [le_div_iff₀ (by exact_mod_cast q.den_pos)]
  exact_mod_cast Int.ediv_mul_le q.num (ne_of_gt hd)

lemma lt_ratFloor_add_one (q : ℚ) : q < (ratFloor q : ℚ) + 1 := by
  have hd : (0 : ℤ) < (q.den : ℤ) := by exact_mod_cast q.den_pos
  rw [ratFloor, Int.fdiv_eq_ediv _ hd.le]
  conv_lhs => rw [← Rat.num_div_den q]
  rw [div_lt_iff₀ (by exact_mod_cast q.den_pos)]
  exact_mod_cast Int.lt_ediv_add_one_mul_self q.num hd

lemma ratFloor_mono {q r : ℚ} (h : q ≤ r) : ratFloor q ≤ ratFloor r := by
  have h1 : (ratFloor q : ℚ) < (ratFloor r : ℚ) + 1 :=
    lt_of_le_of_lt (le_trans (ratFloor_cast_le q) h) (lt_ratFloor_add_one r)
  have : ratFloor q < ratFloor r + 1 := by exact_mod_cast h1
  omega

lemma ratFloor_le_roundHalfEven (q : ℚ) : ratFloor q ≤ roundHalfEven q := by
  unfold roundHalfEven; split_ifs <;> omega

lemma roundHalfEven_le_add_one (q : ℚ) : roundHalfEven q ≤ ratFloor q + 1 := by
  unfold roundHalfEven; split_ifs <;> omega

lemma roundHalfEven_mono {q r : ℚ} (h : q ≤ r) : roundHalfEven q ≤ roundHalfEven r := by
  have hf := ratFloor_mono h
  rcases lt_or_eq_of_le hf with hlt | heq
  · have h1 := roundHalfEven_le_add_one q
    have h2 := ratFloor_le_roundHalfEven r
    omega
  · unfold roundHalfEven
    rw [← heq]
    split_ifs <;> first | omega | (exfalso; linarith)

lemma round2_mono {q r : ℚ} (h : q ≤ r) : round2 q ≤ round2 r := by
  have h1 := roundHalfEven_mono (by linarith : q * 100 ≤ r * 100)
  have h2 : ((roundHalfEven (q * 100) : ℤ) : ℚ) ≤ ((roundHalfEven (r * 100) : ℤ) : ℚ) := by
    exact_mod_cast h1
  rw [round2, round2]
  linarith

lemma ratFloor_intCast (n : ℤ) : ratFloor ((n : ℚ)) = n := by
  rw [ratFloor, Rat.num_intCast, Rat.den_intCast, Nat.cast_one, Int.fdiv_one]

lemma roundHalfEven_intCast (n : ℤ) : roundHalfEven ((n : ℚ)) = n := by
  unfold roundHalfEven
  rw [ratFloor_intCast]
  norm_num

lemma round2_eq_of_mul_hundred {q : ℚ} {m : ℤ} (h : q * 100 = (m : ℚ)) :
    round2 q = (m : ℚ) / 100 := by
  rw [round2, h, roundHalfEven_intCast]

/-! ### Integer-division lemmas -/

lemma fdiv_mono_num {a b s : ℤ} (hs : 0 < s) (h : a ≤ b) : a.fdiv s ≤ b.fdiv s := by
  rw [Int.fdiv_eq_ediv _ hs.le, Int.fdiv_eq_ediv _ hs.le]
  exact Int.ediv_le_ediv hs h

lemma fdiv_nonneg_of {a s : ℤ} (ha : 0 ≤ a) (hs : 0 ≤ s) : 0 ≤ a.fdiv s := by
  rw [Int.fdiv_eq_ediv _ hs]
  exact Int.ediv_nonneg ha hs

lemma tdiv_sixty_mono {a b : ℤ} (ha : 0 ≤ a) (h : a ≤ b) : a.tdiv 60 ≤ b.tdiv 60 := by
  rw [Int.tdiv_eq_ediv ha (by norm_num), Int.tdiv_eq_ediv (ha.trans h) (by norm_num)]
  exact Int.ediv_le_ediv (by norm_num) h

lemma pos_of_tdiv_sixty_pos {a : ℤ} (h : 0 < a.tdiv 60) : 0 < a := by
  by_contra hn
  push_neg at hn
  have h1 : 0 ≤ (-a).tdiv 60 := Int.tdiv_nonneg (by omega) (by norm_num)
  rw [Int.neg_tdiv] at h1
  omega

/-! ### Per-bracket cost lemmas -/

lemma calculate_part_cost_nonpos (p : TariefPart) {m : Int} (h : m ≤ 0) :
    calculate_part_cost p m = 0 := if_pos h

lemma calculate_part_cost_nonneg (p : TariefPart) (hs : 0 < p.step_size)
    (ha : 0 ≤ p.amount) (hc : 0 ≤ p.cumulative_amount) (m : Int) :
    0 ≤ calculate_part_cost p m := by
  unfold calculate_part_cost
  split_ifs with hm
  · exact le_refl 0
  · push_neg at hm
    have hsteps : 0 ≤ (m + p.step_size - 1).fdiv p.step_size :=
      fdiv_nonneg_of (by omega) hs.le
    have hq : (0 : ℚ) ≤ (((m + p.step_size - 1).fdiv p.step_size : ℤ) : ℚ) := by
      exact_mod_cast hsteps
    have := mul_nonneg hq ha
    linarith

lemma calculate_part_cost_mono (p : TariefPart) (hs : 0 < p.step_size)
    (ha : 0 ≤ p.amount) (hc : 0 ≤ p.cumulative_amount) {m1 m2 : Int}
    (h12 : m1 ≤ m2) :
    calculate_part_cost p m1 ≤ calculate_part_cost p m2 := by
  by_cases hm1 : m1 ≤ 0
  · rw [calculate_part_cost_nonpos p hm1]
    exact calculate_part_cost_nonneg p hs ha hc m2
  · push_neg at hm1
    unfold calculate_part_cost
    rw [if_neg (by omega), if_neg (by omega)]
    have hst := fdiv_mono_num hs (by omega : m1 + p.step_size - 1 ≤ m2 + p.step_size - 1)
    have hq : (((m1 + p.step_size - 1).fdiv p.step_size : ℤ) : ℚ)
        ≤ (((m2 + p.step_size - 1).fdiv p.step_size : ℤ) : ℚ) := by exact_mod_cast hst
    have := mul_le_mul_of_nonneg_right hq ha
    linarith

/-! ### The bracket walk equals its closed form -/

lemma calcLoop_nil (D : Int) (r : Int) (acc : ℚ) : calcLoop D [] r acc = (acc, r) := rfl

lemma calcLoop_cons (D : Int) (p : TariefPart) (ps : List TariefPart) (r : Int) (acc : ℚ) :
    calcLoop D (p :: ps) r acc =
      if r ≤ 0 then (acc, r)
      else if D - r < p.start_duration then calcLoop D ps r acc
      else if 0 < min r (p.end_duration - max p.start_duration (D - r)) then
        calcLoop D ps (r - min r (p.end_duration - max p.start_duration (D - r)))
          (acc + calculate_part_cost p (min r (p.end_duration - max p.start_duration (D - r))))
      else calcLoop D ps r acc := rfl

lemma idealTotal_nil (D c : Int) : idealTotal D c [] = 0 := rfl

lemma idealTotal_cons (D c : Int) (p : TariefPart) (ps : List TariefPart) :
    idealTotal D c (p :: ps)
      = calculate_part_cost p (min D (advance c p) - min D c)
          + idealTotal D (advance c p) ps := rfl

lemma le_advance (c : Int) (p : TariefPart) : c ≤ advance c p := by
  unfold advance
  split_ifs <;> omega

lemma le_foldl_advance (c : Int) (ps : List TariefPart) : c ≤ ps.foldl advance c := by
  induction ps generalizing c with
  | nil => simp
  | cons p ps ih =>
    rw [List.foldl_cons]
    exact le_trans (le_advance c p) (ih (advance c p))

lemma idealTotal_of_le {D c : Int} (h : D ≤ c) (ps : List TariefPart) :
    idealTotal D c ps = 0 := by
  induction ps generalizing c with
  | nil => rfl
  | cons p ps ih =>
    rw [idealTotal_cons]
    have hadv := le_advance c p
    rw [ih (le_trans h hadv)]
    have hm : min D (advance c p) - min D c = 0 := by omega
    rw [hm, calculate_part_cost_nonpos p (le_refl 0)]
    ring

lemma calcLoop_eq (D : Int) (ps : List TariefPart) :
    ∀ (c : Int) (acc : ℚ),
      calcLoop D ps (D - min D c) acc
        = (acc + idealTotal D c ps, D - min D (ps.foldl advance c)) := by
  induction ps with
  | nil =>
    intro c acc
    rw [calcLoop_nil, idealTotal_nil, List.foldl_nil, add_zero]
  | cons p ps ih =>
    intro c acc
    rw [calcLoop_cons, List.foldl_cons, idealTotal_cons]
    by_cases hr : D - min D c ≤ 0
    · rw [if_pos hr]
      have hDc : D ≤ c := by omega
      have hadv := le_advance c p
      rw [idealTotal_of_le (le_trans hDc hadv)]
      have hm0 : min D (advance c p) - min D c = 0 := by omega
      rw [hm0, calculate_part_cost_nonpos p (le_refl 0)]
      have hfold := le_foldl_advance (advance c p) ps
      have hz : D - min D (ps.foldl advance (advance c p)) = 0 := by omega
      rw [hz]
      have h0 : D - min D c = 0 := by omega
      rw [h0, add_zero, add_zero]
    · push_neg at hr
      have hminc : min D c = c := by omega
      rw [hminc] at hr ⊢
      rw [if_neg (by omega : ¬ D - c ≤ 0)]
      have hadvdef : advance c p = if c < p.start_duration then c
          else max c p.end_duration := rfl
      by_cases hs : c < p.start_duration
      · rw [if_pos (by omega : D - (D - c) < p.start_duration)]
        have hadv : advance c p = c := by rw [hadvdef, if_pos hs]
        rw [hadv]
        have hm0 : min D c - c = 0 := by omega
        rw [hm0, calculate_part_cost_nonpos p (le_refl 0), zero_add]
        have H := ih c acc
        rw [hminc] at H
        exact H
      · rw [if_neg (by omega : ¬ D - (D - c) < p.start_duration)]
        have hadv : advance c p = max c p.end_duration := by rw [hadvdef, if_neg hs]
        have hM : max p.start_duration (D - (D - c)) = c := by omega
        rw [hM, hadv]
        by_cases hm : 0 < min (D - c) (p.end_duration - c)
        · rw [if_pos hm]
          have hmin2 : min D (max c p.end_duration) - c
              = min (D - c) (p.end_duration - c) := by omega
          rw [hmin2]
          have hr2 : D - c - min (D - c) (p.end_duration - c)
              = D - min D (max c p.end_duration) := by omega
          rw [hr2]
          have H := ih (max c p.end_duration)
            (acc + calculate_part_cost p (min (D - c) (p.end_duration - c)))
          rw [H, add_assoc]
        · rw [if_neg hm]
          have hmax2 : max c p.end_duration = c := by omega
          rw [hmax2]
          have hm0 : min D c - c = 0 := by omega
          rw [hm0, calculate_part_cost_nonpos p (le_refl 0), zero_add]
          have H := ih c acc
          rw [hminc] at H
          exact H

lemma calcLoop_init (parts : List TariefPart) (D : Int) (hD : 0 ≤ D) :
    calcLoop D parts D 0
      = (idealTotal D 0 parts, D - min D (parts.foldl advance 0)) := by
  have H := calcLoop_eq D parts 0 0
  have h0 : min D (0 : ℤ) = 0 := by omega
  rw [h0, sub_zero] at H
  rw [H, zero_add]

lemma calculate_total_cost_tail (parts : List TariefPart) (D : Int) {lp : TariefPart}
    (hlast : parts.getLast? = some lp) (hsent : lp.end_duration = 999999) :
    calculate_total_cost parts D
      = (calcLoop D parts D 0).1 + calculate_part_cost lp (calcLoop D parts D 0).2 := by
  simp only [calculate_total_cost, hlast]
  split_ifs with h
  · rfl
  · have h2 : (calcLoop D parts D 0).2 ≤ 0 := by
      by_contra hc
      push_neg at hc
      exact h ⟨hc, hsent⟩
    rw [calculate_part_cost_nonpos lp h2, add_zero]

lemma calculate_total_cost_no_tail (parts : List TariefPart) (D : Int)
    (h : ¬ 0 < (calcLoop D parts D 0).2) :
    calculate_total_cost parts D = (calcLoop D parts D 0).1 := by
  cases hl : parts.getLast? with
  | none => simp only [calculate_total_cost, hl]
  | some lp =>
    simp only [calculate_total_cost, hl]
    rw [if_neg (fun hc => h hc.1)]

/-! ### Contiguous coverage -/

lemma contig_cons {c : Int} {p : TariefPart} {ps : List TariefPart}
    (h : contigFrom c (p :: ps) = true) :
    p.start_duration = c ∧ p.start_duration ≤ p.end_duration
      ∧ contigFrom p.end_duration ps = true := by
  have h' := h
  simp only [contigFrom, Bool.and_eq_true, beq_iff_eq, decide_eq_true_eq] at h'
  exact ⟨h'.1.1, h'.1.2, h'.2⟩

lemma lastEnd_cons (c : Int) (p : TariefPart) (ps : List TariefPart) :
    lastEnd c (p :: ps) = lastEnd p.end_duration ps := rfl

lemma advance_of_contig_head {c : Int} {p : TariefPart} (hstart : p.start_duration = c)
    (hse : p.start_duration ≤ p.end_duration) : advance c p = p.end_duration := by
  unfold advance
  rw [if_neg (by omega)]
  omega

lemma foldl_advance_contig {c : Int} {ps : List TariefPart}
    (h : contigFrom c ps = true) : ps.foldl advance c = lastEnd c ps := by
  induction ps generalizing c with
  | nil => rfl
  | cons p ps ih =>
    obtain ⟨hstart, hse, hrest⟩ := contig_cons h
    rw [List.foldl_cons, lastEnd_cons, advance_of_contig_head hstart hse]
    exact ih hrest

lemma idealTotal_contig {c : Int} {ps : List TariefPart}
    (h : contigFrom c ps = true) (D : Int) :
    idealTotal D c ps
      = (ps.map (fun p => calculate_part_cost p
          (min D p.end_duration - min D p.start_duration))).sum := by
  induction ps generalizing c with
  | nil => rfl
  | cons p ps ih =>
    obtain ⟨hstart, hse, hrest⟩ := contig_cons h
    rw [idealTotal_cons, List.map_cons, List.sum_cons,
      advance_of_contig_head hstart hse, ih hrest, hstart]

lemma sum_minutes_contig {c : Int} {ps : List TariefPart}
    (h : contigFrom c ps = true) (D : Int) :
    (ps.map (fun p => min D p.end_duration - min D p.start_duration)).sum
      = min D (lastEnd c ps) - min D c := by
  induction ps generalizing c with
  | nil => simp [lastEnd]
  | cons p ps ih =>
    obtain ⟨hstart, hse, hrest⟩ := contig_cons h
    rw [List.map_cons, List.sum_cons, lastEnd_cons, ih hrest, hstart]
    omega

/-! ### Monotonicity of the accumulated cost in the duration -/

lemma idealTotal_mono {ps : List TariefPart}
    (hp : ∀ p ∈ ps, 0 < p.step_size ∧ 0 ≤ p.amount ∧ 0 ≤ p.cumulative_amount)
    {D1 D2 : Int} (h : D1 ≤ D2) (c : Int) :
    idealTotal D1 c ps ≤ idealTotal D2 c ps := by
  induction ps generalizing c with
  | nil => exact le_refl 0
  | cons p ps ih =>
    rw [idealTotal_cons, idealTotal_cons]
    obtain ⟨hs, ha, hc⟩ := hp p (by simp)
    have hca := le_advance c p
    have hterm := calculate_part_cost_mono p hs ha hc
      (by omega : min D1 (advance c p) - min D1 c ≤ min D2 (advance c p) - min D2 c)
    have hrest := ih (fun q hq => hp q (by simp [hq])) (advance c p)
    exact add_le_add hterm hrest

lemma calculate_total_cost_not_sentinel (parts : List TariefPart) (D : Int)
    {lp : TariefPart} (hlast : parts.getLast? = some lp)
    (hsent : lp.end_duration ≠ 999999) :
    calculate_total_cost parts D = (calcLoop D parts D 0).1 := by
  simp only [calculate_total_cost, hlast]
  rw [if_neg (fun hc => hsent hc.2)]

lemma mem_of_getLast? {α : Type} : ∀ {l : List α} {a : α},
    l.getLast? = some a → a ∈ l := by
  intro l
  induction l with
  | nil => intro a h; simp at h
  | cons x xs ih =>
    intro a h
    cases xs with
    | nil =>
      simp only [List.getLast?_singleton, Option.some_inj] at h
      simp [h]
    | cons y ys =>
      rw [List.getLast?_cons_cons] at h
      exact List.mem_cons_of_mem x (ih h)

lemma calculate_total_cost_mono (parts : List TariefPart)
    (hp : ∀ p ∈ parts, 0 < p.step_size ∧ 0 ≤ p.amount ∧ 0 ≤ p.cumulative_amount)
    {D1 D2 : Int} (h0 : 0 ≤ D1) (h : D1 ≤ D2) :
    calculate_total_cost parts D1 ≤ calculate_total_cost parts D2 := by
  have h02 : 0 ≤ D2 := le_trans h0 h
  have H1 := calcLoop_init parts D1 h0
  have H2 := calcLoop_init parts D2 h02
  have hIdeal := idealTotal_mono hp h 0
  cases hl : parts.getLast? with
  | none =>
    have hnil : parts = [] := List.getLast?_eq_none_iff.mp hl
    subst hnil
    simp only [calculate_total_cost, List.getLast?_nil, calcLoop_nil]
    exact le_refl 0
  | some lp =>
    obtain ⟨hs, ha, hc⟩ := hp lp (mem_of_getLast? hl)
    by_cases hsent : lp.end_duration = 999999
    · rw [calculate_total_cost_tail parts D1 hl hsent,
        calculate_total_cost_tail parts D2 hl hsent]
      simp only [H1, H2]
      have hrem : D1 - min D1 (parts.foldl advance 0)
          ≤ D2 - min D2 (parts.foldl advance 0) := by omega
      exact add_le_add hIdeal (calculate_part_cost_mono lp hs ha hc hrem)
    · rw [calculate_total_cost_not_sentinel parts D1 hl hsent,
        calculate_total_cost_not_sentinel parts D2 hl hsent]
      simp only [H1, H2]
      exact hIdeal

/-! ### Selected parts come from the table -/

lemma mem_insertPart {p q : TariefPart} {l : List TariefPart} :
    q ∈ insertPart p l ↔ q = p ∨ q ∈ l := by
  induction l with
  | nil => simp [insertPart]
  | cons x xs ih =>
    unfold insertPart
    split_ifs
    · simp [List.mem_cons]
    · simp only [List.mem_cons, ih]
      tauto

lemma mem_sortParts_aux {q : TariefPart} :
    ∀ (l acc : List TariefPart),
      q ∈ l.foldl (fun acc p => insertPart p acc) acc ↔ q ∈ acc ∨ q ∈ l := by
  intro l
  induction l with
  | nil => simp
  | cons p ps ih =>
    intro acc
    rw [List.foldl_cons, ih (insertPart p acc)]
    simp only [mem_insertPart, List.mem_cons]
    tauto

lemma mem_sortParts {q : TariefPart} {l : List TariefPart} :
    q ∈ sortParts l ↔ q ∈ l := by
  unfold sortParts
  rw [mem_sortParts_aux l []]
  simp

lemma mem_of_mem_get_tarief_parts {data : List TariefPart} {a : Int} {f : String}
    {d : Int} {q : TariefPart} (h : q ∈ get_tarief_parts data a f d) : q ∈ data := by
  unfold get_tarief_parts at h
  rw [mem_sortParts] at h
  exact (List.mem_filter.mp (List.mem_filter.mp h).1).1

/-! ### Catalog sorting: order, stability, head -/

lemma sortZonesDesc_cons (z : ZoneInfo) (zs : List ZoneInfo) :
    sortZonesDesc (z :: zs) = insertZoneDesc z (sortZonesDesc zs) := rfl

lemma insertZoneDesc_cons (z w : ZoneInfo) (ws : List ZoneInfo) :
    insertZoneDesc z (w :: ws)
      = if w.record_count ≤ z.record_count then z :: w :: ws
        else w :: insertZoneDesc z ws := rfl

lemma mem_insertZoneDesc {z q : ZoneInfo} {l : List ZoneInfo} :
    q ∈ insertZoneDesc z l ↔ q = z ∨ q ∈ l := by
  induction l with
  | nil => simp [insertZoneDesc]
  | cons x xs ih =>
    unfold insertZoneDesc
    split_ifs
    · simp [List.mem_cons]
    · simp only [List.mem_cons, ih]
      tauto

lemma insertZoneDesc_ne_nil (z : ZoneInfo) (l : List ZoneInfo) :
    insertZoneDesc z l ≠ [] := by
  cases l with
  | nil => simp [insertZoneDesc]
  | cons x xs =>
    unfold insertZoneDesc
    split_ifs <;> simp

lemma firstMaxZone_cons (z : ZoneInfo) (zs : List ZoneInfo) :
    firstMaxZone (z :: zs)
      = match firstMaxZone zs with
        | none => some z
        | some w => if z.record_count < w.record_count then some w else some z := rfl

lemma head?_sortZonesDesc (l : List ZoneInfo) :
    (sortZonesDesc l).head? = firstMaxZone l := by
  induction l with
  | nil => rfl
  | cons z zs ih =>
    rw [sortZonesDesc_cons, firstMaxZone_cons, ← ih]
    cases hs : sortZonesDesc zs with
    | nil => rfl
    | cons w ws =>
      simp only [List.head?_cons]
      unfold insertZoneDesc
      split_ifs with hcmp h2 h2
      · exact absurd h2 (by omega)
      · simp
      · simp
      · exact absurd hcmp (by omega)

lemma pairwise_insertZoneDesc {z : ZoneInfo} {l : List ZoneInfo}
    (h : l.Pairwise (fun a b => b.record_count ≤ a.record_count)) :
    (insertZoneDesc z l).Pairwise (fun a b => b.record_count ≤ a.record_count) := by
  induction l with
  | nil => simp [insertZoneDesc]
  | cons w ws ih =>
    rw [List.pairwise_cons] at h
    obtain ⟨hw, hws⟩ := h
    unfold insertZoneDesc
    split_ifs with hcmp
    · rw [List.pairwise_cons]
      refine ⟨?_, ?_⟩
      · intro b hb
        rcases List.mem_cons.mp hb with rfl | hb'
        · exact hcmp
        · exact le_trans (hw b hb') hcmp
      · rw [List.pairwise_cons]
        exact ⟨hw, hws⟩
    · rw [List.pairwise_cons]
      refine ⟨?_, ih hws⟩
      intro b hb
      rcases mem_insertZoneDesc.mp hb with rfl | hb'
      · omega
      · exact hw b hb'

lemma pairwise_sortZonesDesc (l : List ZoneInfo) :
    (sortZonesDesc l).Pairwise (fun a b => b.record_count ≤ a.record_count) := by
  induction l with
  | nil => simp [sortZonesDesc]
  | cons z zs ih => exact pairwise_insertZoneDesc ih

lemma sortedDescB_of_pairwise : ∀ {l : List ZoneInfo},
    l.Pairwise (fun a b => b.record_count ≤ a.record_count) → sortedDescB l = true := by
  intro l
  induction l with
  | nil => intro _; rfl
  | cons a t ih =>
    intro h
    rw [List.pairwise_cons] at h
    cases t with
    | nil => rfl
    | cons b t2 =>
      have h1 : b.record_count ≤ a.record_count := h.1 b (by simp)
      have h2 := ih h.2
      simp only [sortedDescB, Bool.and_eq_true, decide_eq_true_eq]
      exact ⟨h1, h2⟩

lemma filter_insertZoneDesc (v : Int) (z : ZoneInfo) (l : List ZoneInfo) :
    (insertZoneDesc z l).filter (fun w => decide (w.record_count = v))
      = if z.record_count = v
        then z :: l.filter (fun w => decide (w.record_count = v))
        else l.filter (fun w => decide (w.record_count = v)) := by
  induction l with
  | nil =>
    simp [insertZoneDesc, List.filter_cons]
  | cons w ws ih =>
    rw [insertZoneDesc_cons]
    by_cases hcmp : w.record_count ≤ z.record_count
    · rw [if_pos hcmp, List.filter_cons]
      by_cases hzv : z.record_count = v
      · simp [hzv]
      · simp [hzv]
    · rw [if_neg hcmp, List.filter_cons, List.filter_cons, ih]
      by_cases hwv : w.record_count = v
      · have hzv : ¬ z.record_count = v := by omega
        simp [hwv, hzv]
      · by_cases hzv : z.record_count = v
        · simp [hwv, hzv]
        · simp [hwv, hzv]

lemma filter_sortZonesDesc (v : Int) (l : List ZoneInfo) :
    (sortZonesDesc l).filter (fun w => decide (w.record_count = v))
      = l.filter (fun w => decide (w.record_count = v)) := by
  induction l with
  | nil => rfl
  | cons z zs ih =>
    rw [sortZonesDesc_cons, filter_insertZoneDesc, List.filter_cons, ih]
    simp only [decide_eq_true_eq]

/-! ### Fallback availability -/

lemma get_fallback_zone_isSome_iff {zones : List ZoneInfo} :
    (get_fallback_zone zones).isSome = true ↔ zones ≠ [] := by
  cases zones with
  | nil => simp [get_fallback_zone, sortZonesDesc]
  | cons z zs =>
    unfold get_fallback_zone
    rw [sortZonesDesc_cons]
    cases hs : insertZoneDesc z (sortZonesDesc zs) with
    | nil => exact absurd hs (insertZoneDesc_ne_nil z (sortZonesDesc zs))
    | cons a l => simp

/-! ### First-hit characterisation of `findSome?` -/

lemma findSome?_eq_of_first {α β : Type} (f : α → Option β) :
    ∀ (l : List α) (i : Nat) (hi : i < l.length) {y : β},
      (∀ j (hj : j < i), f (l.get ⟨j, lt_trans hj hi⟩) = none) →
      f (l.get ⟨i, hi⟩) = some y →
      l.findSome? f = some y := by
  intro l
  induction l with
  | nil => intro i hi; exact absurd hi (by simp)
  | cons a as ih =>
    intro i hi y hnone hsome
    cases i with
    | zero =>
      rw [List.findSome?_cons]
      have ha : f a = some y := hsome
      rw [ha]
    | succ n =>
      rw [List.findSome?_cons]
      have h0 : f a = none := hnone 0 (Nat.succ_pos n)
      rw [h0]
      exact ih n (Nat.lt_of_succ_lt_succ hi)
        (fun j hj => hnone (j + 1) (Nat.succ_lt_succ hj)) hsome

/-! ### Claims -/

/-- Claim C10: an interval with `endTime` strictly after `startTime` but
elapsed time under 60 seconds makes `bereken_kosten` return absent — the
whole-minute duration floors to 0 and the non-positive-duration guard
rejects it. -/
theorem claim10_subminute_absent (data : List TariefPart) (area_manager_id : Int)
    (fare_calculation_code : String) (st et : DTime)
    (h1 : 0 < et.sec - st.sec) (h2 : et.sec - st.sec < 60) :
    bereken_kosten data area_manager_id fare_calculation_code st et = none := by
  have hD : durationMinutes st et = 0 := by
    rw [durationMinutes, Int.tdiv_eq_ediv (by omega) (by norm_num)]
    exact Int.ediv_eq_zero_of_lt (by omega) (by omega)
  simp only [bereken_kosten]
  rw [if_pos (by omega : durationMinutes st et ≤ 0)]

/-- Witness for C10: a 30-second stay over a zone with valid tariff rows is
rejected. -/
theorem claim10_witness :
    bereken_kosten data14 14 ("TAR01") ⟨0, 20240601⟩ ⟨30, 20240601⟩ = none :=
  claim10_subminute_absent data14 14 ("TAR01") ⟨0, 20240601⟩ ⟨30, 20240601⟩
    (by decide) (by decide)

/-- Counterexample to C3 as stated: at a 30-second interval the end time is
strictly after the start time and date-valid tariff rows exist, yet
`bereken_kosten` still returns absent — so "absent exactly when
`endTime ≤ startTime` or no valid rows" is false. -/
theorem claim3_counterexample :
    bereken_kosten data14 14 ("TAR01") ⟨0, 20240601⟩ ⟨30, 20240601⟩ = none
      ∧ (⟨0, 20240601⟩ : DTime).sec < (⟨30, 20240601⟩ : DTime).sec
      ∧ get_tarief_parts data14 14 ("TAR01") 20240601 ≠ [] :=
  ⟨rfl, by decide, by decide⟩

/-- Claim C3 (amended): `bereken_kosten` returns absent exactly when the
duration in whole minutes is non-positive — which happens for all
`endTime ≤ startTime` and also for strictly positive sub-minute intervals —
or when no tariff rows are valid for the calculation date. -/
theorem claim3_amended (data : List TariefPart) (area_manager_id : Int)
    (fare_calculation_code : String) (st et : DTime) :
    bereken_kosten data area_manager_id fare_calculation_code st et = none
      ↔ durationMinutes st et ≤ 0
        ∨ get_tarief_parts data area_manager_id fare_calculation_code st.ymd = [] := by
  simp only [bereken_kosten]
  split_ifs with h1 h2
  · simp [h1]
  · simp [List.isEmpty_iff.mp h2]
  · have hne : get_tarief_parts data area_manager_id fare_calculation_code st.ymd ≠ [] := by
      intro hh
      rw [hh] at h2
      simp at h2
    simp [h1, hne]

/-- Counterexample to C7 as stated: with a single date-valid bracket
`[50, 60)` and a 10-minute stay, the bracket contributes nothing (the total
is 0.00), yet the breakdown still lists it — the code reports the first
three *selected* brackets, not the first three *contributing* ones. -/
theorem claim7_counterexample :
    bereken_kosten dataGap 14 ("TAR01") ⟨0, 20240601⟩ ⟨600, 20240601⟩
      = some { duur_minuten := 10
             , totaal_kosten := 0
             , details := [{ start_duration := 50, end_duration := 60
                           , amount_per_step := 1, step_size_minutes := 15 }] } := by
  have h : bereken_kosten dataGap 14 ("TAR01") ⟨0, 20240601⟩ ⟨600, 20240601⟩
      = some { duur_minuten := 10
             , totaal_kosten := round2 (calculate_total_cost
                 (get_tarief_parts dataGap 14 ("TAR01") 20240601) 10)
             , details := [{ start_duration := 50, end_duration := 60
                           , amount_per_step := 1, step_size_minutes := 15 }] } := rfl
  rw [h]
  have hctc : calculate_total_cost (get_tarief_parts dataGap 14 ("TAR01") 20240601) 10
      = 0 := rfl
  rw [hctc]
  have hr : round2 (0 : ℚ) = 0 := by
    rw [round2_eq_of_mul_hundred (by norm_num : (0 : ℚ) * 100 = ((0 : ℤ) : ℚ))]
    norm_num
  rw [hr]

/-- Claim C7 (amended): the breakdown equals the first up to three
*date-valid selected* brackets in sorted order, whether or not they
contributed any cost. -/
theorem claim7_amended (data : List TariefPart) (area_manager_id : Int)
    (fare_calculation_code : String) (st et : DTime) :
    ∀ r ∈ bereken_kosten data area_manager_id fare_calculation_code st et,
      r.details
        = ((get_tarief_parts data area_manager_id fare_calculation_code st.ymd).take 3).map
            (fun p => { start_duration := p.start_duration
                      , end_duration := p.end_duration
                      , amount_per_step := p.amount
                      , step_size_minutes := p.step_size }) := by
  intro r hr
  rw [Option.mem_def] at hr
  simp only [bereken_kosten] at hr
  by_cases h1 : durationMinutes st et ≤ 0
  · rw [if_pos h1] at hr
    exact absurd hr (by simp)
  · rw [if_neg h1] at hr
    by_cases h2 : (get_tarief_parts data area_manager_id fare_calculation_code st.ymd).isEmpty
        = true
    · rw [if_pos h2] at hr
      exact absurd hr (by simp)
    · rw [if_neg h2] at hr
      injection hr with hr'
      rw [← hr']

/-- Witness for C7 (amended) at the gap table and a 10-minute stay. -/
theorem claim7_witness :
    ({ duur_minuten := 10
     , totaal_kosten := round2 (calculate_total_cost
         (get_tarief_parts dataGap 14 ("TAR01") 20240601) 10)
     , details := [{ start_duration := 50, end_duration := 60
                   , amount_per_step := 1, step_size_minutes := 15 }] } : BerekenResult).details
      = ((get_tarief_parts dataGap 14 ("TAR01") 20240601).take 3).map
          (fun p => { start_duration := p.start_duration
                    , end_duration := p.end_duration
                    , amount_per_step := p.amount
                    , step_size_minutes := p.step_size }) :=
  claim7_amended dataGap 14 ("TAR01") ⟨0, 20240601⟩ ⟨600, 20240601⟩ _ rfl

/-- Counterexample to C9 as stated: the catalog contains the zone displayed
as "Zone 34 - 34_TAR01", yet searching for "utrecht" returns nothing —
no searched field of that zone contains the term. -/
theorem claim9_counterexample :
    mkZoneInfo 34 ("34_TAR01") 7 ∈ zones34
      ∧ (mkZoneInfo 34 ("34_TAR01") 7).zone_naam = "Zone 34 - 34_TAR01"
      ∧ search_zones_by_name zones34 ("utrecht") = [] :=
  ⟨by simp [zones34], by decide, by decide⟩

/-- Claim C9 (amended): search is a case-insensitive substring match of the
term against display name, fare code, or stringified area id (OR across the
three); but the claimed scenario fails — search("utrecht") over a catalog
whose only zone is "Zone 34 - 34_TAR01" returns the empty list. -/
theorem claim9_amended :
    (∀ (zones : List ZoneInfo) (search_term : String) (z : ZoneInfo),
      z ∈ search_zones_by_name zones search_term
        ↔ z ∈ zones
          ∧ (strContains (pyLower z.zone_naam) (pyLower search_term)
              || strContains (pyLower z.fare_calculation_code) (pyLower search_term)
              || strContains (toString z.area_manager_id) (pyLower search_term)) = true)
    ∧ search_zones_by_name zones34 ("utrecht") = [] := by
  constructor
  · intro zones search_term z
    simp only [search_zones_by_name, List.mem_filter]
  · decide

/-- Claim C5: the fallback zone is exactly the first catalog entry of
maximal `record_count` (stable tie-break on the original grouping order),
tagged `fallback_most_popular`; and the zone listing is sorted descending
by `record_count` with the same stable tie-break (each popularity class
keeps its original order). -/
theorem claim5_fallback_and_listing (zones : List ZoneInfo) :
    get_fallback_zone zones
        = (firstMaxZone zones).map
            (fun z => { z with detection_method := "fallback_most_popular" })
      ∧ sortedDescB (get_available_zones zones) = true
      ∧ ∀ v : Int,
          (get_available_zones zones).filter (fun z => decide (z.record_count = v))
            = zones.filter (fun z => decide (z.record_count = v)) := by
  refine ⟨?_, ?_, ?_⟩
  · rw [← head?_sortZonesDesc]
    unfold get_fallback_zone
    cases hs : sortZonesDesc zones with
    | nil => rfl
    | cons a l => rfl
  · exact sortedDescB_of_pairwise (pairwise_sortZonesDesc zones)
  · intro v
    exact filter_sortZonesDesc v zones

lemma zones_ne_nil_of_heuristic {zones : List ZoneInfo} {g : String} {z : ZoneInfo}
    (h : find_zone_by_city_heuristics zones g = some z) : zones ≠ [] := by
  intro hz
  subst hz
  obtain ⟨ac, -, hac⟩ := List.exists_of_findSome?_eq_some h
  simp [zoneLookup] at hac

lemma find_best_isSome (zones : List ZoneInfo) (cache : List (String × ZoneInfo))
    (postcode : String) (ad : AdresData) (hcache : zones = [] → cache = []) :
    (find_best_zone_for_postcode zones cache postcode ad).isSome = true
      ↔ zones ≠ [] := by
  simp only [find_best_zone_for_postcode]
  split
  · next cached h1 =>
    have hz : zones ≠ [] := by
      intro hz0
      rw [hcache hz0] at h1
      simp [cacheLookup] at h1
    simp [hz]
  · next h1 =>
    split
    · next best h2 =>
      simp [zones_ne_nil_of_heuristic h2]
    · next h2 =>
      split
      · next best h3 =>
        have hz : zones ≠ [] := by
          apply get_fallback_zone_isSome_iff.mp
          unfold find_most_popular_zone at h3
          rw [h3]
          rfl
        simp [hz]
      · next h3 =>
        have hz : zones = [] := by
          by_contra hne
          have := get_fallback_zone_isSome_iff.mpr hne
          unfold find_most_popular_zone at h3
          rw [h3] at this
          simp at this
        simp [hz]

lemma resolve_with_adres_isSome (zones : List ZoneInfo)
    (cache : List (String × ZoneInfo)) (postcode_clean : String) (ad : AdresData)
    (hcache : zones = [] → cache = []) :
    (resolve_with_adres zones cache postcode_clean ad).isSome = true
      ↔ zones ≠ [] := by
  simp only [resolve_with_adres]
  split
  · next zi hf =>
    have hz : zones ≠ [] := by
      apply (find_best_isSome zones cache postcode_clean ad hcache).mp
      rw [hf]
      rfl
    simp [hz]
  · next hf =>
    have hz : zones = [] := by
      by_contra hne
      have := (find_best_isSome zones cache postcode_clean ad hcache).mpr hne
      rw [hf] at this
      simp at this
    split
    · next zi2 hf2 =>
      exfalso
      rw [hz] at hf2
      simp [get_fallback_zone, sortZonesDesc] at hf2
    · next hf2 =>
      simp [hz]

/-- Claim C4: zone resolution never fails when the catalog is non-empty —
for every address input and BAG outcome (including its absorbed failures),
`get_zone_by_address` returns a zone iff at least one zone was loaded.  The
hypothesis states the service invariant that the memoization cache can only
hold entries when zones were loaded (it is only ever filled from successful
resolutions against the same catalog). -/
theorem claim4_always_resolves (zones : List ZoneInfo)
    (cache : List (String × ZoneInfo)) (bag_result : Option AdresData)
    (postcode : String) (hcache : zones = [] → cache = []) :
    (get_zone_by_address zones cache bag_result postcode).isSome = true
      ↔ zones ≠ [] := by
  unfold get_zone_by_address
  cases bag_result with
  | some ad => exact resolve_with_adres_isSome zones cache _ ad hcache
  | none =>
    dsimp only
    split
    · next pc_int hp => exact resolve_with_adres_isSome zones cache _ _ hcache
    · next hp =>
      split
      · next zi hf =>
        have hz : zones ≠ [] := get_fallback_zone_isSome_iff.mp (by rw [hf]; rfl)
        simp [hz]
      · next hf =>
        have hz : zones = [] := by
          by_contra hne
          have := get_fallback_zone_isSome_iff.mpr hne
          rw [hf] at this
          simp at this
        simp [hz]

/-- Witness for C4: with a one-zone catalog, an empty cache and a failed
BAG lookup, resolution still yields a zone. -/
theorem claim4_witness :
    (get_zone_by_address zones14 [] none ("1012AB")).isSome = true
      ↔ zones14 ≠ [] :=
  claim4_always_resolves zones14 [] none ("1012AB") (fun h => absurd h (by decide))

/-- Counterexample to C8 as stated: resolving an Amsterdam address through
the city heuristic tags the zone `"city_heuristics"`, which is not the
spec's enum value `city_heuristic`. -/
theorem claim8_counterexample :
    (find_best_zone_for_postcode zones14 [] ("1012AB") adresAms).map
        (fun z => z.detection_method) = some ("city_heuristics")
      ∧ "city_heuristics" ≠ "city_heuristic" :=
  ⟨by decide, by decide⟩

/-- Claim C8 (amended): for a municipality matched case-insensitively in
the fixed city table, with no cached entry, resolution walks the table's
`(areaId, fareCode)` candidates in their fixed order and returns the
catalog entry of the first candidate key present, tagged with the string
`"city_heuristics"` (the code's tag has a trailing `s`, unlike the spec's
enum value `city_heuristic`). -/
theorem claim8_amended (zones : List ZoneInfo) (cache : List (String × ZoneInfo))
    (postcode : String) (ad : AdresData)
    (hcache : cacheLookup cache
        (pyUpper (String.mk (postcode.data.filter (fun c => c ≠ ' ')))
          ++ "_" ++ pyLower ad.gemeente) = none)
    (i : Nat) (hi : i < (heuristicCandidates (pyLower ad.gemeente)).length)
    (hfirst : ∀ j (hj : j < i),
      zoneLookup zones
          (toString ((heuristicCandidates (pyLower ad.gemeente)).get ⟨j, lt_trans hj hi⟩).1
            ++ "_" ++ ((heuristicCandidates (pyLower ad.gemeente)).get ⟨j, lt_trans hj hi⟩).2)
        = none)
    {z : ZoneInfo}
    (hz : zoneLookup zones
        (toString ((heuristicCandidates (pyLower ad.gemeente)).get ⟨i, hi⟩).1
          ++ "_" ++ ((heuristicCandidates (pyLower ad.gemeente)).get ⟨i, hi⟩).2)
      = some z) :
    find_best_zone_for_postcode zones cache postcode ad
      = some { z with detection_method := "city_heuristics" } := by
  have hheur : find_zone_by_city_heuristics zones (pyLower ad.gemeente)
      = some { z with detection_method := "city_heuristics" } := by
    unfold find_zone_by_city_heuristics
    apply findSome?_eq_of_first _ _ i hi
    · intro j hj
      rw [hfirst j hj]
      rfl
    · rw [hz]
      rfl
  simp only [find_best_zone_for_postcode]
  rw [hcache, hheur]

/-- Witness for C8 (amended): Amsterdam input over a catalog holding
`14_TAR01` resolves to that zone via the first candidate, tagged
`"city_heuristics"`. -/
theorem claim8_witness :
    find_best_zone_for_postcode zones14 [] ("1012AB") adresAms
      = some { mkZoneInfo 14 ("TAR01") 5 with detection_method := "city_heuristics" } :=
  claim8_amended zones14 [] ("1012AB") adresAms (by decide) 0 (by decide)
    (fun j hj => absurd hj (Nat.not_lt_zero j)) (by decide)

/-- Claim C1: when the duration is positive and the date-valid brackets
(sorted ascending, hence contiguous from 0 with the last end reaching the
duration) cover the full duration, the total before the final rounding is
the sum over the brackets of `ceil(minutes/step) * amount + cumulative` for
the minutes each bracket absorbs, and those minutes sum to the duration
(brackets beyond the duration absorb 0 minutes and contribute 0). -/
theorem claim1_coverage_total (data : List TariefPart) (area_manager_id : Int)
    (fare_calculation_code : String) (st et : DTime)
    (hD : 0 < durationMinutes st et)
    (hcg : contigFrom 0
      (get_tarief_parts data area_manager_id fare_calculation_code st.ymd) = true)
    (hcov : durationMinutes st et
      ≤ lastEnd 0 (get_tarief_parts data area_manager_id fare_calculation_code st.ymd)) :
    calculate_total_cost
        (get_tarief_parts data area_manager_id fare_calculation_code st.ymd)
        (durationMinutes st et)
      = ((get_tarief_parts data area_manager_id fare_calculation_code st.ymd).map
          (fun p => calculate_part_cost p
            (min (durationMinutes st et) p.end_duration
              - min (durationMinutes st et) p.start_duration))).sum
    ∧ ((get_tarief_parts data area_manager_id fare_calculation_code st.ymd).map
          (fun p => min (durationMinutes st et) p.end_duration
            - min (durationMinutes st et) p.start_duration)).sum
        = durationMinutes st et := by
  set parts := get_tarief_parts data area_manager_id fare_calculation_code st.ymd
    with hpartsdef
  set D := durationMinutes st et with hDdef
  have hminL : min D (lastEnd 0 parts) = D := by omega
  have hmin0 : min D (0 : Int) = 0 := by omega
  have hsum := sum_minutes_contig hcg D
  rw [hminL, hmin0, sub_zero] at hsum
  have hinit := calcLoop_init parts D (by omega)
  have hrem0 : D - min D (parts.foldl advance 0) = 0 := by
    rw [foldl_advance_contig hcg]
    omega
  have hnt : ¬ 0 < (calcLoop D parts D 0).2 := by
    rw [hinit]
    dsimp only
    omega
  refine ⟨?_, hsum⟩
  rw [calculate_total_cost_no_tail parts D hnt, hinit]
  dsimp only
  exact idealTotal_contig hcg D

/-- Witness for C1: the two contiguous brackets of the scenario table cover
a 90-minute stay. -/
theorem claim1_witness :
    calculate_total_cost (get_tarief_parts data14 14 ("TAR01") 20240601) 90
      = ((get_tarief_parts data14 14 ("TAR01") 20240601).map
          (fun p => calculate_part_cost p
            (min 90 p.end_duration - min 90 p.start_duration))).sum
    ∧ ((get_tarief_parts data14 14 ("TAR01") 20240601).map
          (fun p => min 90 p.end_duration - min 90 p.start_duration)).sum = 90 :=
  claim1_coverage_total data14 14 ("TAR01") ⟨0, 20240601⟩ ⟨5400, 20240601⟩
    (by decide) (by decide) (by decide)

/-- Claim C2: the `"14_TAR01"` scenario — bracket `[0,60)` step 15 amount
1.00 and unbounded tail `[60,999999)` step 30 amount 1.50 — bills a
90-minute stay 4.00 + 1.50 = 5.50; and in general, whenever the last
bracket carries the sentinel end 999999, the walk's leftover duration is
billed in full by that bracket's step formula (absorbing everything beyond
the earlier brackets). -/
theorem claim2_scenario_and_tail (parts : List TariefPart) (D : Int)
    (lp : TariefPart) (hlast : parts.getLast? = some lp)
    (hsent : lp.end_duration = 999999) :
    bereken_kosten data14 14 ("TAR01") ⟨0, 20240601⟩ ⟨5400, 20240601⟩
      = some { duur_minuten := 90, totaal_kosten := 11/2
             , details := [ { start_duration := 0, end_duration := 60
                            , amount_per_step := 1, step_size_minutes := 15 }
                          , { start_duration := 60, end_duration := 999999
                            , amount_per_step := 3/2, step_size_minutes := 30 } ] }
    ∧ calculate_total_cost parts D
        = (calcLoop D parts D 0).1
            + calculate_part_cost lp (calcLoop D parts D 0).2 := by
  constructor
  · have h0 : bereken_kosten data14 14 ("TAR01") ⟨0, 20240601⟩ ⟨5400, 20240601⟩
        = some { duur_minuten := 90
               , totaal_kosten := round2 (calculate_total_cost
                   (get_tarief_parts data14 14 ("TAR01") 20240601) 90)
               , details := [ { start_duration := 0, end_duration := 60
                              , amount_per_step := 1, step_size_minutes := 15 }
                            , { start_duration := 60, end_duration := 999999
                              , amount_per_step := 3/2, step_size_minutes := 30 } ] } := rfl
    rw [h0]
    have he : calculate_total_cost (get_tarief_parts data14 14 ("TAR01") 20240601) 90
        = 0 + (((4 : ℤ) : ℚ) * 1 + 0) + (((1 : ℤ) : ℚ) * (3/2) + 0) := rfl
    have hval : calculate_total_cost (get_tarief_parts data14 14 ("TAR01") 20240601) 90
        * 100 = ((550 : ℤ) : ℚ) := by
      rw [he]
      norm_num
    have hr : round2 (calculate_total_cost
        (get_tarief_parts data14 14 ("TAR01") 20240601) 90) = 11/2 := by
      rw [round2_eq_of_mul_hundred hval]
      norm_num
    rw [hr]
  · exact calculate_total_cost_tail parts D hlast hsent

/-- Witness for C2: instantiated at the scenario's sorted bracket list and
its sentinel tail bracket. -/
theorem claim2_witness :
    bereken_kosten data14 14 ("TAR01") ⟨0, 20240601⟩ ⟨5400, 20240601⟩
      = some { duur_minuten := 90, totaal_kosten := 11/2
             , details := [ { start_duration := 0, end_duration := 60
                            , amount_per_step := 1, step_size_minutes := 15 }
                          , { start_duration := 60, end_duration := 999999
                            , amount_per_step := 3/2, step_size_minutes := 30 } ] }
    ∧ calculate_total_cost [row14a, row14b] 90
        = (calcLoop 90 [row14a, row14b] 90 0).1
            + calculate_part_cost row14b (calcLoop 90 [row14a, row14b] 90 0).2 :=
  claim2_scenario_and_tail [row14a, row14b] 90 row14b rfl rfl

/-- Claim C6: with non-negative per-step and cumulative amounts (and the
data model's positive step sizes), moving the end time later while keeping
the start fixed never decreases the returned total cost. -/
theorem claim6_monotone_in_end (data : List TariefPart) (area_manager_id : Int)
    (fare_calculation_code : String) (st et1 et2 : DTime)
    (hrows : ∀ p ∈ data, 0 < p.step_size ∧ 0 ≤ p.amount ∧ 0 ≤ p.cumulative_amount)
    (hend : et1.sec ≤ et2.sec) :
    totalsMono (bereken_kosten data area_manager_id fare_calculation_code st et1)
      (bereken_kosten data area_manager_id fare_calculation_code st et2) := by
  intro a ha b hb
  rw [Option.mem_def] at ha hb
  simp only [bereken_kosten] at ha hb
  by_cases h1 : durationMinutes st et1 ≤ 0
  · rw [if_pos h1] at ha
    exact absurd ha (by simp)
  · rw [if_neg h1] at ha
    have hD1pos : 0 < durationMinutes st et1 := by omega
    have hdiff : 0 < et1.sec - st.sec := pos_of_tdiv_sixty_pos hD1pos
    have hDle : durationMinutes st et1 ≤ durationMinutes st et2 :=
      tdiv_sixty_mono (by omega) (by omega)
    by_cases h2 : (get_tarief_parts data area_manager_id fare_calculation_code
        st.ymd).isEmpty = true
    · rw [if_pos h2] at ha
      exact absurd ha (by simp)
    · rw [if_neg h2] at ha
      rw [if_neg (by omega : ¬ durationMinutes st et2 ≤ 0), if_neg h2] at hb
      injection ha with ha'
      injection hb with hb'
      rw [← ha', ← hb']
      dsimp only
      apply round2_mono
      apply calculate_total_cost_mono
      · intro p hp
        exact hrows p (mem_of_mem_get_tarief_parts hp)
      · omega
      · exact hDle

/-- Witness for C6: over the integer-amount two-bracket table, a 60-minute
stay costs no more than a 90-minute one. -/
theorem claim6_witness :
    totalsMono (bereken_kosten dataMono 14 ("TAR01") ⟨0, 20240601⟩ ⟨3600, 20240601⟩)
      (bereken_kosten dataMono 14 ("TAR01") ⟨0, 20240601⟩ ⟨5400, 20240601⟩) :=
  claim6_monotone_in_end dataMono 14 ("TAR01") ⟨0, 20240601⟩ ⟨3600, 20240601⟩
    ⟨5400, 20240601⟩ (by decide) (by decide)

end NPR
